import Mathlib

/-!
# KuuHuu EV-charger firmware: shallow embedding of `src/main.cpp`

The firmware is a single Arduino sketch.  Its functions are embedded as pure Lean
functions:

* an Arduino `String` is a list of bytes (`Str`);
* `unsigned long` values are natural numbers below `2 ^ 32`, subtraction wraps;
* the process-wide globals are the record `Globals`, passed in and returned;
* every action on an external collaborator (serial output, HTTP request, JSON
  parse) is recorded, in program order, as an `Event`; what the collaborators
  answer (pin level, meter values, HTTP replies) is an input of the embedded
  function; the library code outside the sources is the parameter `Env`.
-/

namespace KuuHuu

/-! ## Strings -/

/-- One Arduino `char`: a byte. -/
abbrev Byte := Fin 256

/-- An Arduino `String`: a finite sequence of bytes. -/
abbrev Str := List Byte

/-- The bytes of a string literal of the source file (UTF-8, as the compiler stores it). -/
def lit (s : String) : Str :=
  (s.toList.flatMap String.utf8EncodeChar).map (fun b => b.val)

/-- Storing an `int` expression into a `char` keeps its low eight bits. -/
def toChar (n : Nat) : Byte := Fin.ofNat n

/-- Modelled from the spec: the C library predicate `isalnum` is not part of the
sources; the spec calls the bytes it accepts "alphanumeric characters", that is the
ASCII ranges `0-9`, `A-Z`, `a-z` (its value in the "C" locale). -/
def isalnum (c : Nat) : Bool :=
  (decide ( '0'.toNat ≤ c) && decide (c ≤ '9'.toNat)) ||
  (decide ( 'A'.toNat ≤ c) && decide (c ≤ 'Z'.toNat)) ||
  (decide ( 'a'.toNat ≤ c) && decide (c ≤ 'z'.toNat))

/-! ## `urlEncode` (main.cpp 202-238) -/

/-- The body of the `for` loop of `urlEncode` (main.cpp 210-235): `encodedString`
after the iteration that reads the character `ch = str.charAt(i)`.  The masks
`c & 0xf` and `(c >> 4) & 0xf` keep the same four bits whether `char` is signed or
unsigned, so they are computed on the value of the byte. -/
def urlEncodeStep (encodedString : Str) (ch : Byte) : Str :=
  let c : Nat := ch.val
  if c = ' '.toNat then
    encodedString ++ [toChar '+'.toNat]
  else if isalnum c then
    encodedString ++ [ch]
  else
    let code1 : Nat :=
      if (c &&& 0xf) > 9 then (c &&& 0xf) - 10 + 'A'.toNat else (c &&& 0xf) + '0'.toNat
    let c : Nat := (c >>> 4) &&& 0xf
    let code0 : Nat :=
      if c > 9 then c - 10 + 'A'.toNat else c + '0'.toNat
    ((encodedString ++ [toChar '%'.toNat]) ++ [toChar code0]) ++ [toChar code1]

/-- The function `urlEncode` (main.cpp 202-238): the loop visits the characters of
`str` from index `0` to `str.length() - 1`, starting from the empty string. -/
def urlEncode (str : Str) : Str :=
  str.foldl urlEncodeStep []

/-! ### The encoding as the specification words it -/

/-- The sixteen upper-case hexadecimal digits, in order of value. -/
def hexDigits : Str := lit "0123456789ABCDEF"

/-- The upper-case hexadecimal digit of value `d` (for `d < 16`). -/
def hexUpper (d : Nat) : Byte := hexDigits.getD d 0

/-- The bytes `[A-Za-z0-9]`. -/
def asciiAlnum : Str :=
  lit "ABCDEFGHIJKLMNOPQRSTUVWXYZabcdefghijklmnopqrstuvwxyz0123456789"

/-- The per-byte image of the specification: a space gives `+`, a byte of
`[A-Za-z0-9]` gives itself, any other byte `b` gives `%`, `hex (b / 16)`,
`hex (b mod 16)`. -/
def byteImage (b : Byte) : Str :=
  if [b] = lit " " then lit "+"
  else if b ∈ asciiAlnum then [b]
  else lit "%" ++ [hexUpper (b.val / 16), hexUpper (b.val % 16)]

/-- The output alphabet `[A-Za-z0-9]`, `+`, `%`. -/
def encodedAlphabet : Str := asciiAlnum ++ lit "+%"

/-- The value of a hexadecimal digit (either case), if the byte is one. -/
def hexValue (c : Byte) : Option Nat :=
  if '0'.toNat ≤ c.val ∧ c.val ≤ '9'.toNat then some (c.val - '0'.toNat)
  else if 'A'.toNat ≤ c.val ∧ c.val ≤ 'F'.toNat then some (c.val - 'A'.toNat + 10)
  else if 'a'.toNat ≤ c.val ∧ c.val ≤ 'f'.toNat then some (c.val - 'a'.toNat + 10)
  else none

/-- The decoder the specification pairs with `urlEncode` (it is not part of the
firmware): the standard form-urlencoded decoder.  `+` decodes to a space, `%`
followed by two hexadecimal digits decodes to the byte with that value, any other
character decodes to itself. -/
def percentDecode : Str → Str
  | [] => []
  | c :: hi :: lo :: rest =>
    if c.val = '+'.toNat then toChar ' '.toNat :: percentDecode (hi :: lo :: rest)
    else if c.val = '%'.toNat then
      match hexValue hi, hexValue lo with
      | some x, some y => toChar (16 * x + y) :: percentDecode rest
      | _, _ => c :: percentDecode (hi :: lo :: rest)
    else c :: percentDecode (hi :: lo :: rest)
  | c :: rest =>
    if c.val = '+'.toNat then toChar ' '.toNat :: percentDecode rest
    else c :: percentDecode rest

/-! ## Configuration constants (main.cpp 7-33) -/

def gearmindHost : Str := lit "gearmind.geworn.cloud"
def gearmindPath : Str := lit "/api/v1/chat"
def gearmindApiKey : Str := lit "YOUR_GEARMIND_API_KEY"
def lineNotifyHost : Str := lit "notify-api.line.me"
def lineNotifyPath : Str := lit "/api/notify"
def lineNotifyToken : Str := lit "YOUR_LINE_NOTIFY_TOKEN"

/-- The constant `emergencyButtonCooldown` (main.cpp 33), in milliseconds. -/
def emergencyButtonCooldown : Nat := 5000

/-- The number of values of an `unsigned long` on the target (32 bits). -/
def ulongRange : Nat := 4294967296

/-- Subtraction of two `unsigned long` values: it wraps modulo `2 ^ 32`. -/
def ulongSub (a b : Nat) : Nat :=
  (a % ulongRange + ulongRange - b % ulongRange) % ulongRange

/-- The error code `checkEmergencyButton` passes to `performDiagnosis` (main.cpp 249). -/
def emergencyErrorCode : Str :=
  lit "EMERGENCY: EMERGENCY BUTTON PRESSED! System shutdown initiated!"

/-- The URL `getGearMindResponse` posts to (main.cpp 119). -/
def gearmindUrl : Str := lit "https://" ++ gearmindHost ++ gearmindPath

/-- The URL `sendLineNotification` posts to (main.cpp 183). -/
def lineNotifyUrl : Str := lit "https://" ++ lineNotifyHost ++ lineNotifyPath

/-! ## Globals, inputs and events -/

/-- The level `digitalRead` returns for a pin. -/
inductive PinLevel where
  | LOW
  | HIGH
deriving DecidableEq, Repr

/-- The process-wide variables the embedded functions read or write (main.cpp 28-32).
`F` is the type of a C `float`. -/
structure Globals (F : Type) where
  voltage : F
  current : F
  power : F
  frequency : F
  powerFactor : F
  emergencyButtonPressed : Bool
  emergencyButtonPressTime : Nat
deriving DecidableEq, Repr

/-- An action of the firmware on an external collaborator. -/
inductive Event (F : Type) where
  /-- `Serial.print` of a string. -/
  | print (text : Str)
  /-- `Serial.println` of a string. -/
  | println (text : Str)
  /-- `Serial.println` of an `int`. -/
  | printlnInt (value : Int)
  /-- `Serial.printf` of a format with one `%d` argument. -/
  | printfInt (format : Str) (value : Int)
  /-- `Serial.printf` of a format with the five readings as arguments. -/
  | printfReadings (format : Str) (v c p f pf : F)
  /-- One HTTP request: `begin url`, the `addHeader` calls, the timeout set with
  `setTimeout` (if any), `POST body`. -/
  | httpPost (url : Str) (headers : List (Str × Str)) (timeoutMs : Option Nat) (body : Str)
  /-- `http.getString ()`: the response body is read. -/
  | httpGetString
  /-- `deserializeJson` is run on `input`. -/
  | jsonParse (input : Str)
deriving DecidableEq, Repr

/-- What the HTTP client answers to one `POST`: the response code and the body
`getString` would return. -/
structure HttpReply where
  code : Int
  body : Str
deriving DecidableEq, Repr

/-- The library functions the firmware calls whose code is not part of the sources.
`Doc` is the type of a parsed JSON document. -/
structure Env (F Doc : Type) where
  /-- The C `isnan`. -/
  isnan : F → Bool
  /-- The Arduino conversion `String (float)`. -/
  floatToString : F → Str
  /-- The method `HTTPClient::errorToString`. -/
  errorToString : Int → Str
  /-- The `serializeJson` output for the request document whose `messages[0]` has
  role `user` and the given content (main.cpp 126-131). -/
  serializeJson : Str → Str
  /-- The `deserializeJson` result: the document, or the text of the error. -/
  deserializeJson : Str → Except Str Doc
  /-- The method `containsKey` of a parsed document. -/
  containsKey : Doc → Str → Bool
  /-- The conversion `doc[key].as<String> ()` of a parsed document. -/
  asString : Doc → Str → Str

/-- The five values the meter getters return on one poll. -/
structure PzemReply (F : Type) where
  voltage : F
  current : F
  power : F
  frequency : F
  pf : F

/-- The inputs of one call of `checkEmergencyButton`: its argument, the level of the
button pin, and the answers of the two HTTP services should they be called. -/
structure Tick where
  currentTime : Nat
  button : PinLevel
  gearmind : HttpReply
  lineCode : Int
deriving DecidableEq, Repr

/-! ## The functions of main.cpp -/

/-- The function `readPZEMValues` (main.cpp 74-90). -/
def readPZEMValues {F Doc : Type} (env : Env F Doc) (pzem : PzemReply F) (g : Globals F) :
    Globals F × List (Event F) :=
  let g := { g with voltage := pzem.voltage }
  let g := { g with current := pzem.current }
  let g := { g with power := pzem.power }
  let g := { g with frequency := pzem.frequency }
  let g := { g with powerFactor := pzem.pf }
  if env.isnan g.voltage || env.isnan g.current || env.isnan g.power ||
      env.isnan g.frequency || env.isnan g.powerFactor then
    (g, [Event.println (lit "Error reading values from PZEM")])
  else
    (g, [Event.printfReadings (lit "V:%.2f A:%.2f W:%.2f Hz:%.2f PF:%.2f\n")
      g.voltage g.current g.power g.frequency g.powerFactor])

/-- The function `getGearMindResponse` (main.cpp 113-178): the returned string and the
events, given the answer `reply` of the HTTP service. -/
def getGearMindResponse {F Doc : Type} (env : Env F Doc) (reply : HttpReply) (message : Str) :
    Str × List (Event F) :=
  let url := lit "https://" ++ gearmindHost ++ gearmindPath
  let headers := [(lit "Content-Type", lit "application/json"),
    (lit "Authorization", lit "Bearer " ++ gearmindApiKey)]
  let requestBody := env.serializeJson message
  let httpResponseCode := reply.code
  let response := lit "Error in GearMind API"
  let start : List (Event F) :=
    [Event.println (lit "Starting GearMind API request..."),
     Event.println (lit "URL: " ++ url),
     Event.println (lit "Request Body: " ++ requestBody),
     Event.httpPost url headers (some 60000) requestBody,
     Event.print (lit "HTTP Response code: "),
     Event.printlnInt httpResponseCode]
  let finish : List (Event F) := [Event.println (lit "API request completed.")]
  if httpResponseCode > 0 then
    let response := reply.body
    let read : List (Event F) :=
      [Event.httpGetString, Event.println (lit "Raw response: " ++ response),
       Event.jsonParse response]
    match env.deserializeJson response with
    | Except.error error =>
      (lit "Error parsing JSON response",
        start ++ read ++
          [Event.print (lit "deserializeJson() failed: "), Event.println error] ++ finish)
    | Except.ok responseDoc =>
      if env.containsKey responseDoc (lit "content") then
        let response := env.asString responseDoc (lit "content")
        (response,
          start ++ read ++ [Event.println (lit "Parsed response content: " ++ response)] ++
            finish)
      else
        (lit "Error: 'content' not found in response",
          start ++ read ++ [Event.println (lit "'content' key not found in response")] ++
            finish)
  else
    (response,
      start ++
        [Event.print (lit "Error code: "), Event.printlnInt httpResponseCode,
         Event.println (env.errorToString httpResponseCode)] ++ finish)

/-- The prompt `performDiagnosis` builds from the error code and the readings
(main.cpp 94-106). -/
def diagnosisMessage {F Doc : Type} (env : Env F Doc) (g : Globals F) (errorCode : Str) : Str :=
  lit "โปรดวิเคราะห์ข้อผิดพลาดต่อไปนี้ของเครื่องชาร์จรถยนต์ไฟฟ้า\n" ++
    lit "Error Code: " ++ errorCode ++
    lit "\nVoltage: " ++ env.floatToString g.voltage ++
    lit "\nCurrent: " ++ env.floatToString g.current ++
    lit "\nPower: " ++ env.floatToString g.power ++
    lit "\nFrequency: " ++ env.floatToString g.frequency ++
    lit "\nPower Factor: " ++ env.floatToString g.powerFactor

/-- The function `performDiagnosis` (main.cpp 92-111). -/
def performDiagnosis {F Doc : Type} (env : Env F Doc) (reply : HttpReply) (g : Globals F)
    (errorCode : Str) : Str × List (Event F) :=
  let diagnosisMessage := diagnosisMessage env g errorCode
  let gearMindResponse := getGearMindResponse env reply diagnosisMessage
  gearMindResponse

/-- The function `sendLineNotification` (main.cpp 180-200), given the response code
`httpResponseCode` of the notification service. -/
def sendLineNotification {F : Type} (httpResponseCode : Int) (message : Str) :
    List (Event F) :=
  let url := lit "https://" ++ lineNotifyHost ++ lineNotifyPath
  let headers := [(lit "Content-Type", lit "application/x-www-form-urlencoded"),
    (lit "Authorization", lit "Bearer " ++ lineNotifyToken)]
  let postData := lit "message=" ++ urlEncode message
  let post : List (Event F) := [Event.httpPost url headers none postData]
  if httpResponseCode > 0 then
    post ++ [Event.printfInt (lit "Line Notify sent. Response: %d\n") httpResponseCode]
  else
    post ++ [Event.printfInt (lit "Error sending Line Notify. Error: %d\n") httpResponseCode]

/-- The function `checkEmergencyButton` (main.cpp 240-260): the globals after the call
and the events of the call. -/
def checkEmergencyButton {F Doc : Type} (env : Env F Doc) (tick : Tick) (g : Globals F) :
    Globals F × List (Event F) :=
  let currentTime := tick.currentTime
  if tick.button = PinLevel.LOW then
    if !g.emergencyButtonPressed then
      let g := { g with emergencyButtonPressed := true }
      let g := { g with emergencyButtonPressTime := currentTime }
      let diagnosis := performDiagnosis env tick.gearmind g emergencyErrorCode
      (g, [Event.println (lit "EMERGENCY BUTTON PRESSED!")] ++ diagnosis.2 ++
        sendLineNotification tick.lineCode diagnosis.1)
    else
      (g, [])
  else
    if g.emergencyButtonPressed &&
        decide (ulongSub currentTime g.emergencyButtonPressTime > emergencyButtonCooldown) then
      ({ g with emergencyButtonPressed := false },
        [Event.println (lit "EMERGENCY BUTTON RELEASED. System ready for next emergency.")])
    else
      (g, [])

/-! ## Runs of the emergency monitor -/

/-- A sequence of `checkEmergencyButton` calls from the globals `g`: for each tick, the
globals after it and its events. -/
def runTicks {F Doc : Type} (env : Env F Doc) : Globals F → List Tick →
    List (Globals F × List (Event F))
  | _, [] => []
  | g, tick :: rest =>
    let r := checkEmergencyButton env tick g
    r :: runTicks env r.1 rest

/-- The HTTP requests among the events, in order: the URL and the body of each. -/
def posts {F : Type} : List (Event F) → List (Str × Str)
  | [] => []
  | Event.httpPost url _ _ body :: rest => (url, body) :: posts rest
  | _ :: rest => posts rest

/-- The events hold one diagnosis call followed by one notify call and no other
request. -/
def firesPair {F : Type} (events : List (Event F)) : Bool :=
  (posts events).map Prod.fst == [gearmindUrl, lineNotifyUrl]

/-- The times of the ticks of a run at which a diagnosis and notify pair fired. -/
def pressTimes {F Doc : Type} (env : Env F Doc) (g : Globals F) (ticks : List Tick) :
    List Nat :=
  ((ticks.zip (runTicks env g ticks)).filter (fun x => firesPair x.2.2)).map
    (fun x => x.1.currentTime)

/-! ## Concrete inputs -/

/-- A toy JSON library over documents that are an optional `content` string: it
parses the two bodies of the specification's examples and rejects any other. -/
def demoEnv : Env Nat (Option Str) where
  isnan := fun x => x == 0
  floatToString := fun _ => lit "0.00"
  errorToString := fun _ => lit "connection refused"
  serializeJson := fun m => lit "\x7b\"messages\":[\x7b\"role\":\"user\",\"content\":\"" ++ m ++ lit "\"\x7d]\x7d"
  deserializeJson := fun body =>
    if body = lit "\x7b\x7d" then Except.ok none
    else if body = lit "\x7b\"content\":\"ok\"\x7d" then Except.ok (some (lit "ok"))
    else Except.error (lit "InvalidInput")
  containsKey := fun d key => key == lit "content" && d.isSome
  asString := fun d _ => d.getD (lit "null")

/-- Globals in the state `IDLE`, with arbitrary readings. -/
def idleGlobals : Globals Nat :=
  { voltage := 230, current := 1, power := 230, frequency := 50, powerFactor := 1,
    emergencyButtonPressed := false, emergencyButtonPressTime := 0 }

/-- A tick at time `t` with the button at `level`; the diagnosis service would answer
`200` with the body `\x7b"content":"ok"\x7d`, the notification service `200`. -/
def tickAt (t : Nat) (level : PinLevel) : Tick :=
  { currentTime := t, button := level,
    gearmind := { code := 200, body := lit "\x7b\"content\":\"ok\"\x7d" }, lineCode := 200 }

/-- The button held low for ten seconds from time `1000`, polled once a second. -/
def heldTenSeconds : List Tick :=
  (List.range 11).map (fun i => tickAt (1000 + 1000 * i) PinLevel.LOW)

/-! ## Lemmas on `urlEncode` -/

theorem urlEncodeStep_nil_eq_byteImage : ∀ b : Byte, urlEncodeStep [] b = byteImage b := by
  decide!

theorem urlEncodeStep_append (acc : Str) (b : Byte) :
    urlEncodeStep acc b = acc ++ urlEncodeStep [] b := by
  unfold urlEncodeStep
  dsimp only
  split
  · simp
  · split <;> simp

theorem foldl_urlEncodeStep (s : Str) :
    ∀ acc : Str, s.foldl urlEncodeStep acc = acc ++ s.flatMap byteImage := by
  induction s with
  | nil => intro acc; simp
  | cons b s ih =>
    intro acc
    rw [List.foldl_cons, ih, urlEncodeStep_append, urlEncodeStep_nil_eq_byteImage,
      List.flatMap_cons, List.append_assoc]

theorem urlEncode_eq_flatMap (s : Str) : urlEncode s = s.flatMap byteImage := by
  unfold urlEncode
  rw [foldl_urlEncodeStep]
  simp

theorem urlEncode_cons (b : Byte) (s : Str) :
    urlEncode (b :: s) = byteImage b ++ urlEncode s := by
  rw [urlEncode_eq_flatMap, urlEncode_eq_flatMap, List.flatMap_cons]

theorem encodedAlphabet_safe : ∀ c ∈ encodedAlphabet,
    [c] ≠ lit "&" ∧ [c] ≠ lit "=" ∧ [c] ≠ lit " " ∧ 32 < c.val ∧ c.val < 127 := by
  decide!

/-! ## Lemmas on `percentDecode` -/

theorem percentDecode_plus (c : Byte) (t : Str) (h : c.val = 43) :
    percentDecode (c :: t) = toChar 32 :: percentDecode t := by
  match t with
  | [] => simp [percentDecode, h]
  | [_] => simp [percentDecode, h]
  | _ :: _ :: _ => simp [percentDecode, h]

theorem percentDecode_plain (c : Byte) (t : Str) (h1 : c.val ≠ 43)
    (h2 : c.val ≠ 37) : percentDecode (c :: t) = c :: percentDecode t := by
  match t with
  | [] => simp [percentDecode, h1]
  | [_] => simp [percentDecode, h1]
  | _ :: _ :: _ => simp [percentDecode, h1, h2]

theorem percentDecode_escape (c hi lo : Byte) (t : Str) (x y : Nat) (h : c.val = 37)
    (hx : hexValue hi = some x) (hy : hexValue lo = some y) :
    percentDecode (c :: hi :: lo :: t) = toChar (16 * x + y) :: percentDecode t := by
  simp [percentDecode, h, hx, hy]

theorem byteImage_cases : ∀ b : Byte,
    (b.val = 32 ∧ byteImage b = [43]) ∨
    (byteImage b = [b] ∧ b ∈ asciiAlnum ∧ b.val ≠ 43 ∧ b.val ≠ 37) ∨
    (byteImage b = [37, hexUpper (b.val / 16), hexUpper (b.val % 16)] ∧
      hexValue (hexUpper (b.val / 16)) = some (b.val / 16) ∧
      hexValue (hexUpper (b.val % 16)) = some (b.val % 16)) := by
  decide!

theorem percentDecode_byteImage_append (b : Byte) (t : Str) :
    percentDecode (byteImage b ++ t) = b :: percentDecode t := by
  rcases byteImage_cases b with ⟨hb, hc⟩ | ⟨hc, _, h1, h2⟩ | ⟨hc, hx, hy⟩
  · rw [hc, List.singleton_append, percentDecode_plus 43 t rfl]
    congr 1
    exact Fin.ext hb.symm
  · rw [hc, List.singleton_append, percentDecode_plain b t h1 h2]
  · rw [hc]
    show percentDecode (37 :: hexUpper (b.val / 16) :: hexUpper (b.val % 16) :: t) = _
    rw [percentDecode_escape 37 _ _ t _ _ rfl hx hy]
    congr 1
    apply Fin.ext
    show (16 * (b.val / 16) + b.val % 16) % 256 = b.val
    have := b.isLt
    omega

theorem percentDecode_urlEncode (s : Str) : percentDecode (urlEncode s) = s := by
  induction s with
  | nil => rfl
  | cons b s ih => rw [urlEncode_cons, percentDecode_byteImage_append, ih]

theorem hexUpper_mem_encodedAlphabet : ∀ d : Fin 16, hexUpper d.val ∈ encodedAlphabet := by
  decide!

theorem special_mem_encodedAlphabet :
    (43 : Byte) ∈ encodedAlphabet ∧ (37 : Byte) ∈ encodedAlphabet := by
  decide!

theorem byteImage_facts (b : Byte) :
    (∀ c ∈ byteImage b, c ∈ encodedAlphabet) ∧
      1 ≤ (byteImage b).length ∧ (byteImage b).length ≤ 3 := by
  rcases byteImage_cases b with ⟨_, hc⟩ | ⟨hc, hmem, _, _⟩ | ⟨hc, _, _⟩
  · rw [hc]
    refine ⟨?_, by simp, by simp⟩
    intro c hcm
    rw [List.mem_singleton] at hcm
    rw [hcm]
    exact special_mem_encodedAlphabet.1
  · rw [hc]
    refine ⟨?_, by simp, by simp⟩
    intro c hcm
    rw [List.mem_singleton] at hcm
    rw [hcm]
    exact List.mem_append_left _ hmem
  · rw [hc]
    refine ⟨?_, by simp, by simp⟩
    intro c hcm
    have hlt1 : b.val / 16 < 16 := by have := b.isLt; omega
    have hlt2 : b.val % 16 < 16 := by omega
    simp only [List.mem_cons, List.mem_singleton, List.not_mem_nil, or_false] at hcm
    rcases hcm with h | h | h
    · rw [h]; exact special_mem_encodedAlphabet.2
    · rw [h]; exact hexUpper_mem_encodedAlphabet ⟨b.val / 16, hlt1⟩
    · rw [h]; exact hexUpper_mem_encodedAlphabet ⟨b.val % 16, hlt2⟩

/-! ## Claims on `urlEncode` -/

/-- C1: for every byte string `s`, `urlEncode s` is the concatenation, in order, of the
per-byte images of `s` (space gives `+`, a byte of `[A-Za-z0-9]` gives itself, any other
byte `b` gives `%`, `hex (b / 16)`, `hex (b mod 16)` with upper-case digits); and
`urlEncode ""` is `""`, `urlEncode "a b"` is `"a+b"`, `urlEncode "a&b"` is `"a%26b"`. -/
theorem urlEncode_concat_of_byte_images :
    (∀ s : Str, urlEncode s = s.flatMap byteImage) ∧
      urlEncode (lit "") = lit "" ∧
      urlEncode (lit "a b") = lit "a+b" ∧
      urlEncode (lit "a&b") = lit "a%26b" :=
  ⟨urlEncode_eq_flatMap, by decide, by decide, by decide⟩

/-- C2: decoding the encoding of any string gives the string back,
`percentDecode (urlEncode s) = s`, and so `urlEncode` is injective. -/
theorem percentDecode_urlEncode_roundtrip :
    (∀ s : Str, percentDecode (urlEncode s) = s) ∧ Function.Injective urlEncode :=
  ⟨percentDecode_urlEncode, Function.LeftInverse.injective percentDecode_urlEncode⟩

/-- C10: every byte of `urlEncode s` lies in `[A-Za-z0-9]`, `+`, `%` (so it is never
`&`, `=`, a space, a control byte or a non-ASCII byte), and
`length s ≤ length (urlEncode s) ≤ 3 * length s`. -/
theorem urlEncode_alphabet_and_length (s : Str) :
    (∀ c ∈ urlEncode s, c ∈ encodedAlphabet ∧
        [c] ≠ lit "&" ∧ [c] ≠ lit "=" ∧ [c] ≠ lit " " ∧ 32 < c.val ∧ c.val < 127) ∧
      s.length ≤ (urlEncode s).length ∧ (urlEncode s).length ≤ 3 * s.length := by
  induction s with
  | nil => exact ⟨fun c hc => (List.not_mem_nil c hc).elim, Nat.le_refl _, Nat.le_refl _⟩
  | cons b s ih =>
    obtain ⟨hmem, hlo, hhi⟩ := ih
    obtain ⟨bmem, blo, bhi⟩ := byteImage_facts b
    rw [urlEncode_cons]
    refine ⟨?_, ?_, ?_⟩
    · intro c hc
      rcases List.mem_append.1 hc with h | h
      · exact ⟨bmem c h, encodedAlphabet_safe c (bmem c h)⟩
      · exact hmem c h
    · rw [List.length_append, List.length_cons]; omega
    · rw [List.length_append, List.length_cons]; omega

/-! ## Lemmas on the HTTP requests of a call -/

theorem posts_append {F : Type} (a b : List (Event F)) : posts (a ++ b) = posts a ++ posts b := by
  induction a with
  | nil => rfl
  | cons e a ih => cases e <;> simp [posts, ih]

theorem posts_getGearMindResponse {F Doc : Type} (env : Env F Doc) (reply : HttpReply)
    (message : Str) :
    posts (getGearMindResponse env reply message).2 = [(gearmindUrl, env.serializeJson message)] := by
  unfold getGearMindResponse
  dsimp only
  split
  · split
    · simp [posts, gearmindUrl]
    · split <;> simp [posts, gearmindUrl]
  · simp [posts, gearmindUrl]

theorem posts_sendLineNotification {F : Type} (code : Int) (message : Str) :
    posts (sendLineNotification code message : List (Event F)) =
      [(lineNotifyUrl, lit "message=" ++ urlEncode message)] := by
  unfold sendLineNotification
  dsimp only
  split <;> simp [posts, lineNotifyUrl]

theorem getGearMindResponse_error_branch {F : Type} (D : Type) (e : Env F D) (r : HttpReply)
    (m : Str) (hr : r.code ≤ 0) :
    getGearMindResponse e r m = (lit "Error in GearMind API",
      [Event.println (lit "Starting GearMind API request..."),
       Event.println (lit "URL: " ++ (lit "https://" ++ gearmindHost ++ gearmindPath)),
       Event.println (lit "Request Body: " ++ e.serializeJson m),
       Event.httpPost (lit "https://" ++ gearmindHost ++ gearmindPath)
         [(lit "Content-Type", lit "application/json"),
          (lit "Authorization", lit "Bearer " ++ gearmindApiKey)] (some 60000)
         (e.serializeJson m),
       Event.print (lit "HTTP Response code: "),
       Event.printlnInt r.code,
       Event.print (lit "Error code: "), Event.printlnInt r.code,
       Event.println (e.errorToString r.code),
       Event.println (lit "API request completed.")]) := by
  unfold getGearMindResponse
  dsimp only
  rw [if_neg (by omega)]
  rfl

theorem performDiagnosis_error_branch {F Doc : Type} (env : Env F Doc) (reply : HttpReply)
    (g : Globals F) (errorCode : Str) (hr : reply.code ≤ 0) :
    (performDiagnosis env reply g errorCode).1 = lit "Error in GearMind API" := by
  unfold performDiagnosis
  dsimp only
  rw [getGearMindResponse_error_branch Doc env reply _ hr]

/-- C6: for every response code `≤ 0` and every body, `getGearMindResponse`, and hence
`performDiagnosis`, returns exactly "Error in GearMind API"; the body is not read and
no JSON parse is run, and the result is the same for any other body and JSON library. -/
theorem getGearMindResponse_nonpositive_code {F Doc : Type} (env : Env F Doc)
    (reply : HttpReply) (message : Str) (h : reply.code ≤ 0) :
    (getGearMindResponse env reply message).1 = lit "Error in GearMind API" ∧
      (∀ (g : Globals F) (errorCode : Str),
        (performDiagnosis env reply g errorCode).1 = lit "Error in GearMind API") ∧
      (∀ input : Str, Event.jsonParse input ∉ (getGearMindResponse env reply message).2) ∧
      Event.httpGetString ∉ (getGearMindResponse env reply message).2 ∧
      (∀ (Doc2 : Type) (env2 : Env F Doc2) (body2 : Str),
        (getGearMindResponse env2 { reply with body := body2 } message).1 =
          (getGearMindResponse env reply message).1) := by
  have key := @getGearMindResponse_error_branch F
  refine ⟨?_, ?_, ?_, ?_, ?_⟩
  · rw [key Doc env reply message h]
  · intro g errorCode
    unfold performDiagnosis
    dsimp only
    rw [key Doc env reply _ h]
  · intro input
    rw [key Doc env reply message h]
    simp
  · rw [key Doc env reply message h]
    simp
  · intro Doc2 env2 body2
    rw [key Doc env reply message h, key Doc2 env2 { reply with body := body2 } message h]

/-- C7: for every positive response code and every body, `getGearMindResponse` returns
"Error parsing JSON response" when the body fails to parse, "Error: 'content' not found in
response" when it parses without a top-level `content` key, and the string value of
`content` otherwise; exactly these three cases occur, and the default text "Error in
GearMind API" is returned only when it is itself the value of `content`. -/
theorem getGearMindResponse_positive_code {F Doc : Type} (env : Env F Doc)
    (reply : HttpReply) (message : Str) (h : 0 < reply.code) :
    (∀ e : Str, env.deserializeJson reply.body = Except.error e →
        (getGearMindResponse env reply message).1 = lit "Error parsing JSON response") ∧
      (∀ d : Doc, env.deserializeJson reply.body = Except.ok d →
        env.containsKey d (lit "content") = false →
        (getGearMindResponse env reply message).1 =
          lit "Error: 'content' not found in response") ∧
      (∀ d : Doc, env.deserializeJson reply.body = Except.ok d →
        env.containsKey d (lit "content") = true →
        (getGearMindResponse env reply message).1 = env.asString d (lit "content")) ∧
      ((∃ e : Str, env.deserializeJson reply.body = Except.error e) ∨
        (∃ d : Doc, env.deserializeJson reply.body = Except.ok d ∧
          env.containsKey d (lit "content") = false) ∨
        (∃ d : Doc, env.deserializeJson reply.body = Except.ok d ∧
          env.containsKey d (lit "content") = true)) ∧
      ((getGearMindResponse env reply message).1 = lit "Error in GearMind API" →
        ∃ d : Doc, env.deserializeJson reply.body = Except.ok d ∧
          env.containsKey d (lit "content") = true ∧
          env.asString d (lit "content") = lit "Error in GearMind API") := by
  have hpos : reply.code > 0 := h
  have hne1 : lit "Error parsing JSON response" ≠ lit "Error in GearMind API" := by decide
  have hne2 : lit "Error: 'content' not found in response" ≠ lit "Error in GearMind API" := by
    decide
  unfold getGearMindResponse
  dsimp only
  rw [if_pos hpos]
  cases hparse : env.deserializeJson reply.body with
  | error e =>
    refine ⟨fun _ _ => rfl, ?_, ?_, Or.inl ⟨e, rfl⟩, fun hs => absurd hs hne1⟩
    · intro d hd; cases hd
    · intro d hd; cases hd
  | ok d =>
    dsimp only
    cases hkey : env.containsKey d (lit "content") with
    | false =>
      refine ⟨?_, ?_, ?_, Or.inr (Or.inl ⟨d, rfl, hkey⟩), ?_⟩
      · intro e he; cases he
      · intro d2 _ _; rfl
      · intro d2 hd2 hk2
        cases hd2
        rw [hkey] at hk2
        cases hk2
      · intro hs
        exact absurd hs hne2
    | true =>
      refine ⟨?_, ?_, ?_, Or.inr (Or.inr ⟨d, rfl, hkey⟩), ?_⟩
      · intro e he; cases he
      · intro d2 hd2 hk2
        cases hd2
        rw [hkey] at hk2
        cases hk2
      · intro d2 hd2 _
        cases hd2
        rfl
      · intro hs
        exact ⟨d, rfl, hkey, hs⟩

/-- The three example bodies with code `200`, run through `demoEnv`. -/
theorem getGearMindResponse_positive_code_witness :
    (0 : Int) < 200 ∧
      (getGearMindResponse demoEnv { code := 200, body := lit "\x7b\"content\":\"ok\"\x7d" }
        (lit "prompt")).1 = lit "ok" ∧
      (getGearMindResponse demoEnv { code := 200, body := lit "\x7b\x7d" }
        (lit "prompt")).1 = lit "Error: 'content' not found in response" ∧
      (getGearMindResponse demoEnv { code := 200, body := lit "\x7b\"content\":" }
        (lit "prompt")).1 = lit "Error parsing JSON response" :=
  ⟨by decide,
    (getGearMindResponse_positive_code demoEnv
      { code := 200, body := lit "\x7b\"content\":\"ok\"\x7d" } (lit "prompt")
      (by decide)).2.2.1 (some (lit "ok")) (by rfl) (by decide),
    (getGearMindResponse_positive_code demoEnv { code := 200, body := lit "\x7b\x7d" }
      (lit "prompt") (by decide)).2.1 none (by rfl) (by decide),
    (getGearMindResponse_positive_code demoEnv { code := 200, body := lit "\x7b\"content\":" }
      (lit "prompt") (by decide)).1 (lit "InvalidInput") (by rfl)⟩

/-- The response code `-1` with a body that would parse. -/
theorem getGearMindResponse_nonpositive_code_witness :
    (-1 : Int) ≤ 0 ∧
      (getGearMindResponse demoEnv { code := -1, body := lit "\x7b\"content\":\"ok\"\x7d" }
        (lit "prompt")).1 = lit "Error in GearMind API" :=
  ⟨by decide,
    (getGearMindResponse_nonpositive_code demoEnv
      { code := -1, body := lit "\x7b\"content\":\"ok\"\x7d" } (lit "prompt") (by decide)).1⟩

/-- C9: after `readPZEMValues` each of the five reading globals equals the value the
meter returned for it on this poll, whatever the globals held before, and the read-error
line is logged exactly when at least one of the five values is NaN (so also when only
the voltage is NaN). -/
theorem readPZEMValues_overwrites_readings {F Doc : Type} (env : Env F Doc)
    (pzem : PzemReply F) (g : Globals F) :
    ((readPZEMValues env pzem g).1.voltage = pzem.voltage ∧
        (readPZEMValues env pzem g).1.current = pzem.current ∧
        (readPZEMValues env pzem g).1.power = pzem.power ∧
        (readPZEMValues env pzem g).1.frequency = pzem.frequency ∧
        (readPZEMValues env pzem g).1.powerFactor = pzem.pf) ∧
      (∀ g2 : Globals F,
        (readPZEMValues env pzem g2).1.voltage = (readPZEMValues env pzem g).1.voltage ∧
        (readPZEMValues env pzem g2).1.current = (readPZEMValues env pzem g).1.current ∧
        (readPZEMValues env pzem g2).1.power = (readPZEMValues env pzem g).1.power ∧
        (readPZEMValues env pzem g2).1.frequency = (readPZEMValues env pzem g).1.frequency ∧
        (readPZEMValues env pzem g2).1.powerFactor = (readPZEMValues env pzem g).1.powerFactor ∧
        (readPZEMValues env pzem g2).2 = (readPZEMValues env pzem g).2) ∧
      (Event.println (lit "Error reading values from PZEM") ∈ (readPZEMValues env pzem g).2 ↔
        (env.isnan pzem.voltage = true ∨ env.isnan pzem.current = true ∨
          env.isnan pzem.power = true ∨ env.isnan pzem.frequency = true ∨
          env.isnan pzem.pf = true)) ∧
      (env.isnan pzem.voltage = true →
        (readPZEMValues env pzem g).2 =
          [Event.println (lit "Error reading values from PZEM")]) := by
  have fields : ∀ g0 : Globals F,
      (readPZEMValues env pzem g0).1.voltage = pzem.voltage ∧
        (readPZEMValues env pzem g0).1.current = pzem.current ∧
        (readPZEMValues env pzem g0).1.power = pzem.power ∧
        (readPZEMValues env pzem g0).1.frequency = pzem.frequency ∧
        (readPZEMValues env pzem g0).1.powerFactor = pzem.pf := by
    intro g0
    unfold readPZEMValues
    dsimp only
    split <;> exact ⟨rfl, rfl, rfl, rfl, rfl⟩
  have events : ∀ g0 : Globals F, (readPZEMValues env pzem g0).2 =
      if env.isnan pzem.voltage || env.isnan pzem.current || env.isnan pzem.power ||
          env.isnan pzem.frequency || env.isnan pzem.pf then
        [Event.println (lit "Error reading values from PZEM")]
      else
        [Event.printfReadings (lit "V:%.2f A:%.2f W:%.2f Hz:%.2f PF:%.2f\n")
          pzem.voltage pzem.current pzem.power pzem.frequency pzem.pf] := by
    intro g0
    unfold readPZEMValues
    dsimp only
    split <;> rfl
  refine ⟨fields g, ?_, ?_, ?_⟩
  · intro g2
    obtain ⟨a1, a2, a3, a4, a5⟩ := fields g
    obtain ⟨b1, b2, b3, b4, b5⟩ := fields g2
    rw [a1, a2, a3, a4, a5, b1, b2, b3, b4, b5, events g, events g2]
    exact ⟨rfl, rfl, rfl, rfl, rfl, rfl⟩
  · rw [events g]
    split
    · rename_i hc
      simp only [Bool.or_eq_true] at hc
      simp only [List.mem_singleton, true_iff]
      tauto
    · rename_i hc
      simp only [Bool.or_eq_true] at hc
      simp only [List.mem_singleton, reduceCtorEq, false_iff]
      tauto
  · intro hv
    rw [events g]
    simp [hv]

/-! ## Lemmas on `checkEmergencyButton` -/

theorem checkEmergencyButton_press {F Doc : Type} (env : Env F Doc) (tick : Tick)
    (g : Globals F) (hb : tick.button = PinLevel.LOW) (hp : g.emergencyButtonPressed = false) :
    checkEmergencyButton env tick g =
      ({ g with emergencyButtonPressed := true, emergencyButtonPressTime := tick.currentTime },
        [Event.println (lit "EMERGENCY BUTTON PRESSED!")] ++
          (performDiagnosis env tick.gearmind
            { g with emergencyButtonPressed := true,
                     emergencyButtonPressTime := tick.currentTime } emergencyErrorCode).2 ++
          sendLineNotification tick.lineCode
            (performDiagnosis env tick.gearmind
              { g with emergencyButtonPressed := true,
                       emergencyButtonPressTime := tick.currentTime } emergencyErrorCode).1) := by
  unfold checkEmergencyButton
  simp [hb, hp]

theorem checkEmergencyButton_held {F Doc : Type} (env : Env F Doc) (tick : Tick)
    (g : Globals F) (hb : tick.button = PinLevel.LOW) (hp : g.emergencyButtonPressed = true) :
    checkEmergencyButton env tick g = (g, []) := by
  unfold checkEmergencyButton
  simp [hb, hp]

theorem checkEmergencyButton_release {F Doc : Type} (env : Env F Doc) (tick : Tick)
    (g : Globals F) (hb : tick.button = PinLevel.HIGH) (hp : g.emergencyButtonPressed = true)
    (hc : emergencyButtonCooldown < ulongSub tick.currentTime g.emergencyButtonPressTime) :
    checkEmergencyButton env tick g =
      ({ g with emergencyButtonPressed := false },
        [Event.println
          (lit "EMERGENCY BUTTON RELEASED. System ready for next emergency.")]) := by
  unfold checkEmergencyButton
  simp [hb, hp, hc]

theorem checkEmergencyButton_wait {F Doc : Type} (env : Env F Doc) (tick : Tick)
    (g : Globals F) (hb : tick.button = PinLevel.HIGH)
    (hc : g.emergencyButtonPressed = false ∨
      ulongSub tick.currentTime g.emergencyButtonPressTime ≤ emergencyButtonCooldown) :
    checkEmergencyButton env tick g = (g, []) := by
  unfold checkEmergencyButton
  rcases hc with hc | hc
  · simp [hb, hc]
  · simp [hb]
    intro _
    exact hc

theorem posts_performDiagnosis {F Doc : Type} (env : Env F Doc) (reply : HttpReply)
    (g : Globals F) (errorCode : Str) :
    posts (performDiagnosis env reply g errorCode).2 =
      [(gearmindUrl, env.serializeJson (diagnosisMessage env g errorCode))] := by
  unfold performDiagnosis
  exact posts_getGearMindResponse env reply _

theorem posts_checkEmergencyButton_press {F Doc : Type} (env : Env F Doc) (tick : Tick)
    (g : Globals F) (hb : tick.button = PinLevel.LOW) (hp : g.emergencyButtonPressed = false) :
    posts (checkEmergencyButton env tick g).2 =
      [(gearmindUrl, env.serializeJson (diagnosisMessage env g emergencyErrorCode)),
       (lineNotifyUrl, lit "message=" ++ urlEncode
          (performDiagnosis env tick.gearmind
            { g with emergencyButtonPressed := true,
                     emergencyButtonPressTime := tick.currentTime } emergencyErrorCode).1)] := by
  rw [checkEmergencyButton_press env tick g hb hp]
  simp only [posts_append, posts_performDiagnosis, posts_sendLineNotification]
  rfl

theorem posts_checkEmergencyButton_quiet {F Doc : Type} (env : Env F Doc) (tick : Tick)
    (g : Globals F) (h : tick.button = PinLevel.HIGH ∨ g.emergencyButtonPressed = true) :
    posts (checkEmergencyButton env tick g).2 = [] := by
  cases hb : tick.button with
  | LOW =>
    rcases h with h | h
    · rw [hb] at h; cases h
    · rw [checkEmergencyButton_held env tick g hb h]; rfl
  | HIGH =>
    by_cases hc : g.emergencyButtonPressed = true ∧
        emergencyButtonCooldown < ulongSub tick.currentTime g.emergencyButtonPressTime
    · rw [checkEmergencyButton_release env tick g hb hc.1 hc.2]; rfl
    · rw [checkEmergencyButton_wait env tick g hb]
      · rfl
      · by_cases hp : g.emergencyButtonPressed = true
        · right
          exact Nat.le_of_not_lt (fun h2 => hc ⟨hp, h2⟩)
        · left
          simpa using hp

theorem gearmindUrl_ne_lineNotifyUrl : gearmindUrl ≠ lineNotifyUrl := by decide

theorem firesPair_checkEmergencyButton {F Doc : Type} (env : Env F Doc) (tick : Tick)
    (g : Globals F) :
    firesPair (checkEmergencyButton env tick g).2 = true ↔
      (tick.button = PinLevel.LOW ∧ g.emergencyButtonPressed = false) := by
  constructor
  · intro hf
    by_contra hn
    have hq : tick.button = PinLevel.HIGH ∨ g.emergencyButtonPressed = true := by
      cases hb : tick.button with
      | HIGH => exact Or.inl rfl
      | LOW =>
        right
        cases hp : g.emergencyButtonPressed with
        | true => rfl
        | false => exact absurd ⟨hb, hp⟩ hn
    unfold firesPair at hf
    rw [posts_checkEmergencyButton_quiet env tick g hq] at hf
    simp at hf
  · rintro ⟨hb, hp⟩
    unfold firesPair
    rw [posts_checkEmergencyButton_press env tick g hb hp]
    simp

/-! ## Lemmas on runs -/

theorem runTicks_cons {F Doc : Type} (env : Env F Doc) (g : Globals F) (tick : Tick)
    (rest : List Tick) :
    runTicks env g (tick :: rest) =
      checkEmergencyButton env tick g :: runTicks env (checkEmergencyButton env tick g).1 rest :=
  rfl

theorem runTicks_high_quiet {F Doc : Type} (env : Env F Doc) (highs : List Tick)
    (hh : ∀ t ∈ highs, t.button = PinLevel.HIGH) :
    ∀ g : Globals F, ∀ r ∈ runTicks env g highs, posts r.2 = [] := by
  induction highs with
  | nil => intro g r hr; cases hr
  | cons t ts ih =>
    intro g r hr
    rw [runTicks_cons, List.mem_cons] at hr
    rcases hr with hr | hr
    · rw [hr]
      exact posts_checkEmergencyButton_quiet env t g (Or.inl (hh t (List.mem_cons_self _ _)))
    · exact ih (fun t2 h2 => hh t2 (List.mem_cons_of_mem _ h2)) _ r hr

theorem runTicks_held_quiet {F Doc : Type} (env : Env F Doc) (g : Globals F)
    (hp : g.emergencyButtonPressed = true) (lows highs : List Tick)
    (hl : ∀ t ∈ lows, t.button = PinLevel.LOW)
    (hh : ∀ t ∈ highs, t.button = PinLevel.HIGH) :
    ∀ r ∈ runTicks env g (lows ++ highs), posts r.2 = [] := by
  induction lows with
  | nil => exact runTicks_high_quiet env highs hh g
  | cons t ts ih =>
    intro r hr
    rw [List.cons_append, runTicks_cons,
      checkEmergencyButton_held env t g (hl t (List.mem_cons_self _ _)) hp, List.mem_cons] at hr
    rcases hr with hr | hr
    · rw [hr]; rfl
    · exact ih (fun t2 h2 => hl t2 (List.mem_cons_of_mem _ h2)) r hr

theorem flatMap_posts_quiet {F : Type} (trace : List (Globals F × List (Event F)))
    (h : ∀ r ∈ trace, posts r.2 = []) : trace.flatMap (fun r => posts r.2) = [] := by
  induction trace with
  | nil => rfl
  | cons r rs ih =>
    rw [List.flatMap_cons, h r (List.mem_cons_self _ _),
      ih (fun r2 h2 => h r2 (List.mem_cons_of_mem _ h2))]
    rfl

/-- C8: on a call with the button `LOW` and `emergencyButtonPressed = false`,
`checkEmergencyButton` sets `emergencyButtonPressed = true` and
`emergencyButtonPressTime = currentTime`, sends exactly one diagnosis request, built from
the fixed emergency error code, and after it exactly one notification request whose body
is `message=` followed by `urlEncode` of the diagnosis result; this holds for every
result, the failure text "Error in GearMind API" included. -/
theorem checkEmergencyButton_press_calls {F Doc : Type} (env : Env F Doc) (tick : Tick)
    (g : Globals F) (hb : tick.button = PinLevel.LOW) (hp : g.emergencyButtonPressed = false) :
    (checkEmergencyButton env tick g).1 =
        { g with emergencyButtonPressed := true,
                 emergencyButtonPressTime := tick.currentTime } ∧
      posts (checkEmergencyButton env tick g).2 =
        [(gearmindUrl, env.serializeJson (diagnosisMessage env g emergencyErrorCode)),
         (lineNotifyUrl, lit "message=" ++ urlEncode
            (performDiagnosis env tick.gearmind (checkEmergencyButton env tick g).1
              emergencyErrorCode).1)] ∧
      (checkEmergencyButton env tick g).2 =
        [Event.println (lit "EMERGENCY BUTTON PRESSED!")] ++
          (performDiagnosis env tick.gearmind (checkEmergencyButton env tick g).1
            emergencyErrorCode).2 ++
          sendLineNotification tick.lineCode
            (performDiagnosis env tick.gearmind (checkEmergencyButton env tick g).1
              emergencyErrorCode).1 ∧
      (tick.gearmind.code ≤ 0 →
        (posts (checkEmergencyButton env tick g).2).map Prod.snd =
          [env.serializeJson (diagnosisMessage env g emergencyErrorCode),
           lit "message=" ++ urlEncode (lit "Error in GearMind API")]) := by
  have hstep := checkEmergencyButton_press env tick g hb hp
  have hposts := posts_checkEmergencyButton_press env tick g hb hp
  refine ⟨by rw [hstep], ?_, ?_, ?_⟩
  · rw [hposts, hstep]
  · rw [hstep]
  · intro hcode
    rw [hposts, performDiagnosis_error_branch env tick.gearmind _ emergencyErrorCode hcode]
    rfl

/-- The press at time `1000` from `idleGlobals`: the notification body is `message=ok`. -/
theorem checkEmergencyButton_press_calls_witness :
    (tickAt 1000 PinLevel.LOW).button = PinLevel.LOW ∧
      idleGlobals.emergencyButtonPressed = false ∧
      (checkEmergencyButton demoEnv (tickAt 1000 PinLevel.LOW) idleGlobals).1 =
        { idleGlobals with emergencyButtonPressed := true, emergencyButtonPressTime := 1000 } ∧
      (posts (checkEmergencyButton demoEnv (tickAt 1000 PinLevel.LOW) idleGlobals).2).map
          Prod.snd =
        [demoEnv.serializeJson (diagnosisMessage demoEnv idleGlobals emergencyErrorCode),
         lit "message=ok"] :=
  ⟨rfl, rfl,
    (checkEmergencyButton_press_calls demoEnv (tickAt 1000 PinLevel.LOW) idleGlobals rfl rfl).1,
    by
      rw [(checkEmergencyButton_press_calls demoEnv (tickAt 1000 PinLevel.LOW) idleGlobals
        rfl rfl).2.1]
      decide!⟩

/-- C3: from the state `IDLE`, over one or more ticks with the button `LOW` followed by
any number of ticks with the button `HIGH`, exactly one diagnosis and notify pair of
requests is sent in total, it is sent on the first `LOW` tick, and no tick taken in the
state `ACTIVE` sends a request. -/
theorem hold_then_release_fires_once {F Doc : Type} (env : Env F Doc) (g : Globals F)
    (lows highs : List Tick) (hidle : g.emergencyButtonPressed = false) (hne : lows ≠ [])
    (hl : ∀ t ∈ lows, t.button = PinLevel.LOW)
    (hh : ∀ t ∈ highs, t.button = PinLevel.HIGH) :
    ((runTicks env g (lows ++ highs)).flatMap (fun r => posts r.2)).map Prod.fst =
        [gearmindUrl, lineNotifyUrl] ∧
      (∃ first rest, runTicks env g (lows ++ highs) = first :: rest ∧
        firesPair first.2 = true ∧ ∀ r ∈ rest, posts r.2 = []) ∧
      (∀ (active : Globals F) (tick : Tick), active.emergencyButtonPressed = true →
        posts (checkEmergencyButton env tick active).2 = []) := by
  obtain ⟨t, ts, rfl⟩ := List.exists_cons_of_ne_nil hne
  have hb : t.button = PinLevel.LOW := hl t (List.mem_cons_self _ _)
  have hfire : firesPair (checkEmergencyButton env t g).2 = true :=
    (firesPair_checkEmergencyButton env t g).2 ⟨hb, hidle⟩
  have hactive : (checkEmergencyButton env t g).1.emergencyButtonPressed = true := by
    rw [checkEmergencyButton_press env t g hb hidle]
  have hquiet := runTicks_held_quiet env (checkEmergencyButton env t g).1 hactive ts highs
    (fun t2 h2 => hl t2 (List.mem_cons_of_mem _ h2)) hh
  refine ⟨?_, ⟨_, _, rfl, hfire, hquiet⟩, ?_⟩
  · rw [List.cons_append, runTicks_cons, List.flatMap_cons, flatMap_posts_quiet _ hquiet,
      List.append_nil]
    unfold firesPair at hfire
    exact eq_of_beq hfire
  · intro active tick ha
    exact posts_checkEmergencyButton_quiet env tick active (Or.inr ha)

/-- The button held for ten seconds, then two ticks after the release. -/
theorem hold_then_release_fires_once_witness :
    idleGlobals.emergencyButtonPressed = false ∧ heldTenSeconds ≠ [] ∧
      (∀ t ∈ heldTenSeconds, t.button = PinLevel.LOW) ∧
      (∀ t ∈ [tickAt 11001 PinLevel.HIGH, tickAt 11002 PinLevel.HIGH],
        t.button = PinLevel.HIGH) ∧
      ((runTicks demoEnv idleGlobals
          (heldTenSeconds ++ [tickAt 11001 PinLevel.HIGH, tickAt 11002 PinLevel.HIGH])).flatMap
        (fun r => posts r.2)).map Prod.fst = [gearmindUrl, lineNotifyUrl] :=
  ⟨rfl, by decide, by decide, by decide,
    (hold_then_release_fires_once demoEnv idleGlobals heldTenSeconds
      [tickAt 11001 PinLevel.HIGH, tickAt 11002 PinLevel.HIGH] rfl (by decide) (by decide)
      (by decide)).1⟩

/-! ## Lemmas on the cooldown -/

theorem ulongSub_of_le (a b : Nat) (ha : a < ulongRange) (hb : b ≤ a) : ulongSub a b = a - b := by
  unfold ulongSub
  unfold ulongRange at *
  omega

theorem runTicks_active_in_window {F Doc : Type} (env : Env F Doc) (p : Nat)
    (ticks : List Tick) :
    ∀ g : Globals F, g.emergencyButtonPressed = true → g.emergencyButtonPressTime = p →
      (∀ tk ∈ ticks, p ≤ tk.currentTime ∧ tk.currentTime < ulongRange) →
      (ticks.map Tick.currentTime).Pairwise (fun a b => a ≤ b) →
      ∀ x ∈ ticks.zip (runTicks env g ticks),
        x.1.currentTime - p ≤ emergencyButtonCooldown → x.2.1.emergencyButtonPressed = true := by
  induction ticks with
  | nil => intro g _ _ _ _ x hx; cases hx
  | cons tk ts ih =>
    intro g hp hpt hbound hsorted x hx hwin
    rw [List.map_cons, List.pairwise_cons] at hsorted
    have htk := hbound tk (List.mem_cons_self _ _)
    rw [runTicks_cons, List.zip_cons_cons, List.mem_cons] at hx
    by_cases hle : tk.currentTime - p ≤ emergencyButtonCooldown
    · have hstep : checkEmergencyButton env tk g = (g, []) := by
        cases hb : tk.button with
        | LOW => exact checkEmergencyButton_held env tk g hb hp
        | HIGH =>
          apply checkEmergencyButton_wait env tk g hb
          right
          rw [hpt, ulongSub_of_le _ _ htk.2 htk.1]
          exact hle
      rw [hstep] at hx
      rcases hx with hx | hx
      · rw [hx]; exact hp
      · exact ih g hp hpt (fun t2 h2 => hbound t2 (List.mem_cons_of_mem _ h2)) hsorted.2 x hx hwin
    · rcases hx with hx | hx
      · rw [hx] at hwin
        exact absurd hwin hle
      · have hmem : x.1 ∈ ts := (List.of_mem_zip (a := x.1) (b := x.2) hx).1
        have hge := hsorted.1 x.1.currentTime (List.mem_map_of_mem _ hmem)
        omega

theorem pressTimes_cons {F Doc : Type} (env : Env F Doc) (g : Globals F) (tick : Tick)
    (rest : List Tick) :
    pressTimes env g (tick :: rest) =
      (if firesPair (checkEmergencyButton env tick g).2 = true then [tick.currentTime] else []) ++
        pressTimes env (checkEmergencyButton env tick g).1 rest := by
  unfold pressTimes
  rw [runTicks_cons, List.zip_cons_cons, List.filter_cons]
  split <;> simp

theorem mem_pressTimes {F Doc : Type} (env : Env F Doc) (g : Globals F) (ticks : List Tick)
    (t : Nat) (h : t ∈ pressTimes env g ticks) : ∃ tk ∈ ticks, tk.currentTime = t := by
  unfold pressTimes at h
  rw [List.mem_map] at h
  obtain ⟨x, hx, rfl⟩ := h
  exact ⟨x.1, (List.of_mem_zip (a := x.1) (b := x.2) (List.mem_of_mem_filter hx)).1, rfl⟩

theorem pressTimes_after_press {F Doc : Type} (env : Env F Doc) (p : Nat) (ticks : List Tick) :
    ∀ g : Globals F, g.emergencyButtonPressed = true → g.emergencyButtonPressTime = p →
      (∀ tk ∈ ticks, p ≤ tk.currentTime ∧ tk.currentTime < ulongRange) →
      (ticks.map Tick.currentTime).Pairwise (fun a b => a ≤ b) →
      ∀ t ∈ pressTimes env g ticks, emergencyButtonCooldown < t - p := by
  induction ticks with
  | nil => intro g _ _ _ _ t ht; cases ht
  | cons tk ts ih =>
    intro g hp hpt hbound hsorted t ht
    rw [List.map_cons, List.pairwise_cons] at hsorted
    have htk := hbound tk (List.mem_cons_self _ _)
    have hquiet : ¬ firesPair (checkEmergencyButton env tk g).2 = true := by
      rw [firesPair_checkEmergencyButton, hp]
      simp
    rw [pressTimes_cons, if_neg hquiet, List.nil_append] at ht
    by_cases hle : tk.currentTime - p ≤ emergencyButtonCooldown
    · have hstep : checkEmergencyButton env tk g = (g, []) := by
        cases hb : tk.button with
        | LOW => exact checkEmergencyButton_held env tk g hb hp
        | HIGH =>
          apply checkEmergencyButton_wait env tk g hb
          right
          rw [hpt, ulongSub_of_le _ _ htk.2 htk.1]
          exact hle
      rw [hstep] at ht
      exact ih g hp hpt (fun t2 h2 => hbound t2 (List.mem_cons_of_mem _ h2)) hsorted.2 t ht
    · obtain ⟨tk2, hmem, rfl⟩ := mem_pressTimes env _ ts t ht
      have hge := hsorted.1 tk2.currentTime (List.mem_map_of_mem _ hmem)
      omega

theorem pressTimes_pairwise {F Doc : Type} (env : Env F Doc) (ticks : List Tick) :
    ∀ g : Globals F, (∀ tk ∈ ticks, tk.currentTime < ulongRange) →
      (ticks.map Tick.currentTime).Pairwise (fun a b => a ≤ b) →
      (pressTimes env g ticks).Pairwise (fun p t => emergencyButtonCooldown < t - p) := by
  induction ticks with
  | nil => intro g _ _; exact List.Pairwise.nil
  | cons tk ts ih =>
    intro g hrange hsorted
    have hs := hsorted
    rw [List.map_cons, List.pairwise_cons] at hs
    have hrest := ih (checkEmergencyButton env tk g).1
      (fun t2 h2 => hrange t2 (List.mem_cons_of_mem _ h2)) hs.2
    rw [pressTimes_cons]
    split
    · rename_i hfire
      obtain ⟨hb, hp⟩ := (firesPair_checkEmergencyButton env tk g).1 hfire
      rw [List.singleton_append, List.pairwise_cons]
      refine ⟨?_, hrest⟩
      apply pressTimes_after_press env tk.currentTime ts
      · rw [checkEmergencyButton_press env tk g hb hp]
      · rw [checkEmergencyButton_press env tk g hb hp]
      · intro t2 h2
        exact ⟨hs.1 t2.currentTime (List.mem_map_of_mem _ h2),
          hrange t2 (List.mem_cons_of_mem _ h2)⟩
      · exact hs.2
    · rw [List.nil_append]
      exact hrest

/-! ## Claims on the cooldown -/

/-- C4, as stated, fails: the button is held `LOW` from the press at time `1000` until
time `11000` and first reads `HIGH` at time `r = 11001`; after that very tick, for which
`t - r = 0 ≤ 5000`, the state is already `IDLE`. -/
theorem cooldown_post_release_counterexample :
    idleGlobals.emergencyButtonPressed = false ∧
      (∀ t ∈ heldTenSeconds, t.button = PinLevel.LOW) ∧
      (heldTenSeconds.map Tick.currentTime).getLast? = some 11000 ∧
      (tickAt 11001 PinLevel.HIGH).currentTime - 11001 ≤ emergencyButtonCooldown ∧
      (runTicks demoEnv idleGlobals (heldTenSeconds ++ [tickAt 11001 PinLevel.HIGH])).map
          (fun r => r.1.emergencyButtonPressed) =
        [true, true, true, true, true, true, true, true, true, true, true, false] := by
  decide

/-- C4, amended: the cooldown runs from the press, not from the release.  Over ticks with
non-decreasing times below `2 ^ 32` that start in `IDLE` with a tick at time `p` reading
`LOW`, the state is still `ACTIVE` after every tick whose time `t` satisfies
`t - p ≤ emergencyButtonCooldown`; and a tick taken in `ACTIVE` that reads `HIGH` more than
`emergencyButtonCooldown` after `emergencyButtonPressTime` sets the state to `IDLE`. -/
theorem active_within_cooldown_of_press {F Doc : Type} (env : Env F Doc) (g : Globals F)
    (press : Tick) (rest : List Tick) (hidle : g.emergencyButtonPressed = false)
    (hlow : press.button = PinLevel.LOW)
    (hrange : ∀ tk ∈ press :: rest, tk.currentTime < ulongRange)
    (hsorted : ((press :: rest).map Tick.currentTime).Pairwise (fun a b => a ≤ b)) :
    (∀ x ∈ (press :: rest).zip (runTicks env g (press :: rest)),
        x.1.currentTime - press.currentTime ≤ emergencyButtonCooldown →
        x.2.1.emergencyButtonPressed = true) ∧
      (∀ (active : Globals F) (tick : Tick), active.emergencyButtonPressed = true →
        tick.button = PinLevel.HIGH →
        emergencyButtonCooldown < ulongSub tick.currentTime active.emergencyButtonPressTime →
        (checkEmergencyButton env tick active).1.emergencyButtonPressed = false) := by
  constructor
  · intro x hx hwin
    have hs := hsorted
    rw [List.map_cons, List.pairwise_cons] at hs
    rw [runTicks_cons, List.zip_cons_cons, List.mem_cons] at hx
    rcases hx with hx | hx
    · rw [hx, checkEmergencyButton_press env press g hlow hidle]
    · refine runTicks_active_in_window env press.currentTime rest _ ?_ ?_ ?_ hs.2 x hx hwin
      · rw [checkEmergencyButton_press env press g hlow hidle]
      · rw [checkEmergencyButton_press env press g hlow hidle]
      · intro t2 h2
        exact ⟨hs.1 t2.currentTime (List.mem_map_of_mem _ h2),
          hrange t2 (List.mem_cons_of_mem _ h2)⟩
  · intro active tick ha hb hc
    rw [checkEmergencyButton_release env tick active hb ha hc]

/-- A press at `1000`, released before the cooldown is over: `IDLE` only at `6001`. -/
theorem active_within_cooldown_of_press_witness :
    idleGlobals.emergencyButtonPressed = false ∧
      (tickAt 1000 PinLevel.LOW).button = PinLevel.LOW ∧
      (∀ tk ∈ [tickAt 1000 PinLevel.LOW, tickAt 3000 PinLevel.LOW, tickAt 4000 PinLevel.HIGH,
          tickAt 6000 PinLevel.HIGH, tickAt 6001 PinLevel.HIGH],
        tk.currentTime < ulongRange) ∧
      (runTicks demoEnv idleGlobals
          [tickAt 1000 PinLevel.LOW, tickAt 3000 PinLevel.LOW, tickAt 4000 PinLevel.HIGH,
            tickAt 6000 PinLevel.HIGH, tickAt 6001 PinLevel.HIGH]).map
          (fun r => r.1.emergencyButtonPressed) = [true, true, true, true, false] ∧
      (∀ x ∈ [tickAt 1000 PinLevel.LOW, tickAt 3000 PinLevel.LOW, tickAt 4000 PinLevel.HIGH,
            tickAt 6000 PinLevel.HIGH, tickAt 6001 PinLevel.HIGH].zip
          (runTicks demoEnv idleGlobals
            [tickAt 1000 PinLevel.LOW, tickAt 3000 PinLevel.LOW, tickAt 4000 PinLevel.HIGH,
              tickAt 6000 PinLevel.HIGH, tickAt 6001 PinLevel.HIGH]),
        x.1.currentTime - (tickAt 1000 PinLevel.LOW).currentTime ≤ emergencyButtonCooldown →
        x.2.1.emergencyButtonPressed = true) :=
  ⟨rfl, rfl, by decide, by decide,
    (active_within_cooldown_of_press demoEnv idleGlobals (tickAt 1000 PinLevel.LOW)
      [tickAt 3000 PinLevel.LOW, tickAt 4000 PinLevel.HIGH, tickAt 6000 PinLevel.HIGH,
        tickAt 6001 PinLevel.HIGH] rfl rfl (by decide) (by decide)).1⟩

/-- C5: over ticks with non-decreasing times below `2 ^ 32` and arbitrary button readings,
from any globals, when a diagnosis and notify pair fires at a tick with time `p`, any pair
fired at a later tick has a time `t` with `t - p > emergencyButtonCooldown`; in particular
the times of two consecutive triggers differ by more than the cooldown. -/
theorem no_retrigger_within_cooldown {F Doc : Type} (env : Env F Doc) (g : Globals F)
    (ticks : List Tick) (hrange : ∀ tk ∈ ticks, tk.currentTime < ulongRange)
    (hsorted : (ticks.map Tick.currentTime).Pairwise (fun a b => a ≤ b)) :
    (pressTimes env g ticks).Pairwise (fun p t => emergencyButtonCooldown < t - p) ∧
      (pressTimes env g ticks).Chain' (fun p t => emergencyButtonCooldown < t - p) :=
  ⟨pressTimes_pairwise env ticks g hrange hsorted,
    (pressTimes_pairwise env ticks g hrange hsorted).chain'⟩

/-- A bounce at `1100` and `1200` after the press at `1000` does not fire again; the
press at `7100`, after the release seen at `7000`, does. -/
theorem no_retrigger_within_cooldown_witness :
    (∀ tk ∈ [tickAt 1000 PinLevel.LOW, tickAt 1100 PinLevel.HIGH, tickAt 1200 PinLevel.LOW,
          tickAt 7000 PinLevel.HIGH, tickAt 7100 PinLevel.LOW],
        tk.currentTime < ulongRange) ∧
      pressTimes demoEnv idleGlobals
          [tickAt 1000 PinLevel.LOW, tickAt 1100 PinLevel.HIGH, tickAt 1200 PinLevel.LOW,
            tickAt 7000 PinLevel.HIGH, tickAt 7100 PinLevel.LOW] = [1000, 7100] ∧
      (pressTimes demoEnv idleGlobals
          [tickAt 1000 PinLevel.LOW, tickAt 1100 PinLevel.HIGH, tickAt 1200 PinLevel.LOW,
            tickAt 7000 PinLevel.HIGH, tickAt 7100 PinLevel.LOW]).Pairwise
        (fun p t => emergencyButtonCooldown < t - p) :=
  ⟨by decide, by decide,
    (no_retrigger_within_cooldown demoEnv idleGlobals
      [tickAt 1000 PinLevel.LOW, tickAt 1100 PinLevel.HIGH, tickAt 1200 PinLevel.LOW,
        tickAt 7000 PinLevel.HIGH, tickAt 7100 PinLevel.LOW] (by decide) (by decide)).1⟩

end KuuHuu
